import Mathlib

/-!
Shallow embedding of the henderiw/store repository: the in-memory store
(`mem[T1]` in the memory package), its CRUD-with-notification contract, and
the watcher manager (`watcherManager[T1]`) with its admission control and
event-dispatch loop.  Go maps are embedded as association lists with
insert-or-replace update; `reflect.DeepEqual` is embedded as decidable
equality on the object type; channel sends of notifications are embedded as
the list of events a mutation emits; goroutine-per-subscriber fan-out with a
`WaitGroup` barrier per event is embedded as a sequential fold over the event
sequence (the barrier makes per-event processing atomic with respect to the
next event).
-/

namespace Store

/-- Modelled from the spec: the `store.Key` type (its defining file is not
part of the sources here, only its uses): an optional namespace string plus
a required name string, compared by value. -/
structure Key where
  Namespace : String
  Name : String
deriving DecidableEq, Repr

/-- Event types of the watch package: `watch.Added`, `watch.Modified`,
`watch.Deleted`, `watch.Error`. -/
inductive EventType where
  | Added
  | Modified
  | Deleted
  | Error
deriving DecidableEq, Repr

/-- Embedding of `watch.WatchEvent[T1]`: an event type together with the full object
snapshot it carries. -/
structure WatchEvent (T : Type) where
  ty : EventType
  Object : T
deriving DecidableEq, Repr

/-- Errors returned by the store operations.  The Go code builds them with
`fmt.Errorf`; the message text is abstracted into a constructor carrying the
key: `notFound` for the "not found, nsn: ..." error of `Get`, `duplicate`
for the "duplicate entry ..." error of `Create`. -/
inductive MemErr where
  | notFound (k : Key)
  | duplicate (k : Key)
deriving DecidableEq, Repr

/-- State of the `mem[T1]` store: the `db` map (association list with unique
keys in insertion order) and the `watching` flag set by `Start`/`Stop`. -/
structure MemState (T : Type) where
  db : List (Key × T)
  watching : Bool

/-- Go map read `r.db[key]` (with presence flag): first entry with the key. -/
def dbLookup {T : Type} (db : List (Key × T)) (k : Key) : Option T :=
  match db with
  | [] => none
  | kv :: rest => if kv.1 = k then some kv.2 else dbLookup rest k

/-- Go map write `r.db[key] = v`: replace the entry if the key is present,
append it otherwise. -/
def dbUpdate {T : Type} (db : List (Key × T)) (k : Key) (v : T) : List (Key × T) :=
  match db with
  | [] => [(k, v)]
  | kv :: rest => if kv.1 = k then (k, v) :: rest else kv :: dbUpdate rest k v

/-- Go map delete `delete(r.db, key)`: drop the entries with the key. -/
def dbDelete {T : Type} (db : List (Key × T)) (k : Key) : List (Key × T) :=
  match db with
  | [] => []
  | kv :: rest => if kv.1 = k then dbDelete rest k else kv :: dbDelete rest k

/-- Embedding of `mem.Start`: sets the watching flag (the spawned manager loop is
modelled separately). -/
def memStart {T : Type} (s : MemState T) : MemState T :=
  { s with watching := true }

/-- Embedding of `mem.Stop`: clears the watching flag. -/
def memStop {T : Type} (s : MemState T) : MemState T :=
  { s with watching := false }

/-- Embedding of `mem.Get`: read-through lookup; absent keys yield the not-found error. -/
def memGet {T : Type} (s : MemState T) (k : Key) : Except MemErr T :=
  match dbLookup s.db k with
  | some x => .ok x
  | none => .error (.notFound k)

/-- Embedding of `mem.notifyWatcher`: the event is sent to the channel of the
watcher manager
only while the `watching` flag is set; otherwise it is dropped.  The result
is the list of events actually sent. -/
def notifyWatcher {T : Type} (s : MemState T) (e : WatchEvent T) : List (WatchEvent T) :=
  if s.watching then [e] else []

/-- Embedding of `mem.Create`: fails with the duplicate error when `Get` succeeds (and
then changes nothing and emits nothing); otherwise persists and emits
`Added`.  Returns (result, post state, emitted events). -/
def memCreate {T : Type} (s : MemState T) (k : Key) (v : T) :
    Except MemErr Unit × MemState T × List (WatchEvent T) :=
  match memGet s k with
  | .ok _ => (.error (.duplicate k), s, [])
  | .error _ =>
    let s1 : MemState T := { s with db := dbUpdate s.db k v }
    (.ok (), s1, notifyWatcher s1 ⟨.Added, v⟩)

/-- Embedding of `mem.Update`: persists unconditionally; emits `Added` when the key was
absent, `Modified` when it was present with a deep-structurally different
value (`reflect.DeepEqual` embedded as decidable equality), and nothing when
the stored value was equal. -/
def memUpdate {T : Type} [DecidableEq T] (s : MemState T) (k : Key) (v : T) :
    MemState T × List (WatchEvent T) :=
  let old := memGet s k
  let s1 : MemState T := { s with db := dbUpdate s.db k v }
  match old with
  | .ok oldd => (s1, if oldd = v then [] else notifyWatcher s1 ⟨.Modified, v⟩)
  | .error _ => (s1, notifyWatcher s1 ⟨.Added, v⟩)

/-- Embedding of `mem.Apply`: persists unconditionally; prior existence alone decides
`Added` versus `Modified`, with no content comparison. -/
def memApply {T : Type} (s : MemState T) (k : Key) (v : T) :
    MemState T × List (WatchEvent T) :=
  let exs := (dbLookup s.db k).isSome
  let s1 : MemState T := { s with db := dbUpdate s.db k v }
  (s1, notifyWatcher s1 ⟨if exs then .Modified else .Added, v⟩)

/-- Embedding of `mem.Delete`: returns success with no change and no event when the
pre-delete read fails; otherwise deletes the entry and emits `Deleted`
carrying the previously stored object. -/
def memDelete {T : Type} (s : MemState T) (k : Key) :
    MemState T × List (WatchEvent T) :=
  match memGet s k with
  | .error _ => (s, [])
  | .ok obj =>
    let s1 : MemState T := { s with db := dbDelete s.db k }
    (s1, notifyWatcher s1 ⟨.Deleted, obj⟩)

/-- Embedding of `mem.UpdateWithKeyFn`: reads `r.db[key]` (the Go zero value, passed here
explicitly, when the key is absent), applies the update function, stores the
result, and calls no notification path at all. -/
def memUpdateWithKeyFn {T : Type} (s : MemState T) (k : Key) (zero : T)
    (fn : T → T) : MemState T × List (WatchEvent T) :=
  let obj := (dbLookup s.db k).getD zero
  ({ s with db := dbUpdate s.db k (fn obj) }, [])

/-- Embedding of `mem.ListKeys`: visits every entry and collects only `key.Name`. -/
def memListKeys {T : Type} (s : MemState T) : List String :=
  s.db.map (fun kv => kv.1.Name)

/-- Embedding of `mem.Len`: the number of entries in the db map. -/
def memLen {T : Type} (s : MemState T) : Nat :=
  s.db.length

/-- A registry entry of the watcher manager (`watcher[T1]` record): the
manager-assigned unique id (the Go uuid is embedded as a Nat allocated from
a counter) and whether its `isDone` predicate, bound to `ctx.Err`, reports
an error.  Callback and filter options play no role in admission. -/
structure MWatcher where
  key : Nat
  done : Bool
deriving DecidableEq, Repr

/-- Admission failure of `watcherManager.Add`: the
"max number of watchers reached" (ResourceExhausted) error. -/
inductive MgrErr where
  | resourceExhausted
deriving DecidableEq, Repr

/-- State of `watcherManager[T1]` relevant to admission: the remaining units
of the weighted semaphore `sem`, the registry (`watchers` cache), and the
fresh-id counter standing in for uuid allocation. -/
structure MgrState where
  avail : Nat
  watchers : List MWatcher
  nextId : Nat
deriving DecidableEq, Repr

/-- Embedding of `watchermanager.New(maxWatchers)`: full semaphore, empty registry. -/
def newMgr (maxWatchers : Nat) : MgrState :=
  { avail := maxWatchers, watchers := [], nextId := 0 }

/-- The sweep at the head of `Add`: every registry entry whose `isDone`
reports an error is removed and its semaphore unit released. -/
def mgrSweep (st : MgrState) : MgrState :=
  { avail := st.avail + (st.watchers.filter (fun w => w.done)).length,
    watchers := st.watchers.filter (fun w => !w.done),
    nextId := st.nextId }

/-- Embedding of `watcherManager.Add`: sweep done watchers, then `TryAcquire(1)` on the
semaphore — failing with ResourceExhausted when no unit is available —
and on success register a fresh-id entry whose `done` state is the admitted
current `ctx.Err` state of the admitted context.  Returns (result, post state). -/
def mgrAdd (st : MgrState) (ctxDone : Bool) : Except MgrErr Unit × MgrState :=
  let st1 := mgrSweep st
  if st1.avail = 0 then
    (.error .resourceExhausted, st1)
  else
    (.ok (), { avail := st1.avail - 1,
               watchers := st1.watchers ++ [⟨st1.nextId, ctxDone⟩],
               nextId := st1.nextId + 1 })

/-- Iterates `Add` with a live (non-done) context n times, keeping the
state of each call. -/
def addLiveIter (st : MgrState) : Nat → MgrState
  | 0 => st
  | n + 1 => (mgrAdd (addLiveIter st n) false).2

/-- A subscriber as seen by the dispatch loop: its id, its `isDone`
predicate (indexed by the dispatch step, standing for the cancellation state
of its context when the delivery goroutine re-checks it), the
keep-going verdict its `OnChange` callback returns per event, and the
events its callback has received so far. -/
structure DWatcher (T : Type) where
  key : Nat
  isDone : Nat → Bool
  keepGoing : WatchEvent T → Bool
  received : List (WatchEvent T)

/-- One iteration of the dispatch loop body of `watcherManager.Start` for a
single event received from the channel: for every subscriber in the registry
snapshot, the spawned delivery goroutine removes it if `isDone` reports an
error, otherwise invokes its callback with the event and removes it if the
callback reports keep-going = false.  The `wg.Wait` barrier makes the whole
per-event fan-out complete before the next event is read, so it is one
atomic step here. -/
def processEvent {T : Type} (t : Nat) (e : WatchEvent T) (ws : List (DWatcher T)) :
    List (DWatcher T) :=
  ws.filterMap fun w =>
    if w.isDone t then none
    else if w.keepGoing e then some { w with received := w.received ++ [e] }
    else none

/-- The dispatch loop of `watcherManager.Start` over a finite sequence of
events sent into the ingestion channel, starting at dispatch step t. -/
def dispatchLoop {T : Type} (ws : List (DWatcher T)) (events : List (WatchEvent T))
    (t : Nat) : List (DWatcher T) :=
  match events with
  | [] => ws
  | e :: rest => dispatchLoop (processEvent t e ws) rest (t + 1)

/-- Concrete fixtures used by witnesses and counterexamples. -/
def exKey : Key := ⟨"default", "a"⟩

def exKeyOther : Key := ⟨"other", "a"⟩

def exStateA : MemState Nat := ⟨[(exKey, 5)], true⟩

def exStateEmpty : MemState Nat := ⟨[], true⟩

def exEvent1 : WatchEvent Nat := ⟨.Added, 1⟩

def exEvent2 : WatchEvent Nat := ⟨.Modified, 2⟩

def exDW : DWatcher Nat := ⟨0, fun _ => false, fun _ => true, []⟩

def exMgrFullDone : MgrState := ⟨0, [⟨0, true⟩, ⟨1, false⟩], 2⟩

def exStateTwo : MemState Nat := ⟨[(exKey, 5), (exKeyOther, 6)], true⟩

theorem dbLookup_dbUpdate_self {T : Type} (db : List (Key × T)) (k : Key) (v : T) :
    dbLookup (dbUpdate db k v) k = some v := by
  induction db with
  | nil => simp [dbUpdate, dbLookup]
  | cons kv rest ih =>
    by_cases h : kv.1 = k
    · simp [dbUpdate, dbLookup, h]
    · simp [dbUpdate, dbLookup, h, ih]

theorem dbLookup_dbUpdate_other {T : Type} (db : List (Key × T)) (k k1 : Key) (v : T)
    (h : k1 ≠ k) : dbLookup (dbUpdate db k v) k1 = dbLookup db k1 := by
  induction db with
  | nil => simp [dbUpdate, dbLookup, Ne.symm h]
  | cons kv rest ih =>
    by_cases hk : kv.1 = k
    · simp [dbUpdate, dbLookup, hk, Ne.symm h]
    · by_cases hk1 : kv.1 = k1
      · simp [dbUpdate, dbLookup, hk, hk1, h]
      · simp [dbUpdate, dbLookup, hk, hk1, ih]

theorem dbLookup_dbDelete_self {T : Type} (db : List (Key × T)) (k : Key) :
    dbLookup (dbDelete db k) k = none := by
  induction db with
  | nil => simp [dbDelete, dbLookup]
  | cons kv rest ih =>
    by_cases h : kv.1 = k
    · simp [dbDelete, h, ih]
    · simp [dbDelete, dbLookup, h, ih]

theorem dbLookup_dbDelete_other {T : Type} (db : List (Key × T)) (k k1 : Key)
    (h : k1 ≠ k) : dbLookup (dbDelete db k) k1 = dbLookup db k1 := by
  induction db with
  | nil => simp [dbDelete]
  | cons kv rest ih =>
    by_cases hk : kv.1 = k
    · simp [dbDelete, dbLookup, hk, Ne.symm h, ih]
    · by_cases hk1 : kv.1 = k1
      · simp [dbDelete, dbLookup, hk, hk1, h]
      · simp [dbDelete, dbLookup, hk, hk1, ih]

/-- Claim C3 (amended): while watching, `Update(k, v)` persists `v`
unconditionally; it emits exactly one `Added` event when `k` was absent,
exactly one `Modified` event when `k` held a structurally different value,
and nothing when `k` already held a structurally equal value; an immediately
repeated `Update(k, v)` is always silent, so two consecutive `Update(k, v)`
calls with structurally equal `v` emit at most one event in total — exactly
one unless `k` already held a structurally equal value before the first
call, in which case both calls are silent. -/
theorem c3_update_content_aware {T : Type} [DecidableEq T] (s : MemState T) (k : Key)
    (v : T) (hw : s.watching = true) :
    (memUpdate s k v).1.db = dbUpdate s.db k v
    ∧ memGet (memUpdate s k v).1 k = .ok v
    ∧ (dbLookup s.db k = none → (memUpdate s k v).2 = [⟨.Added, v⟩])
    ∧ (∀ old, dbLookup s.db k = some old → old ≠ v →
        (memUpdate s k v).2 = [⟨.Modified, v⟩])
    ∧ (∀ old, dbLookup s.db k = some old → old = v → (memUpdate s k v).2 = [])
    ∧ (memUpdate (memUpdate s k v).1 k v).2 = []
    ∧ ((memUpdate s k v).2 ++ (memUpdate (memUpdate s k v).1 k v).2).length
        = (if dbLookup s.db k = some v then 0 else 1) := by
  cases h : dbLookup s.db k with
  | none => simp [memUpdate, memGet, notifyWatcher, h, dbLookup_dbUpdate_self, hw]
  | some old =>
    by_cases ho : old = v <;>
      simp [memUpdate, memGet, notifyWatcher, h, ho, dbLookup_dbUpdate_self, hw]

/-- Claim C3, counterexample to the claim as stated: on a store that already
holds the value being written, two consecutive `Update(k, v)` calls with
structurally equal `v` emit zero events in total, not exactly one. -/
theorem c3_counterexample :
    ¬ ((memUpdate exStateA exKey 5).2
        ++ (memUpdate (memUpdate exStateA exKey 5).1 exKey 5).2).length = 1 := by
  decide

/-- Claim C3, amended-theorem witness: on an empty watching store, a first
`Update` emits one `Added` event. -/
theorem c3_witness :
    exStateEmpty.watching = true
    ∧ (memUpdate exStateEmpty exKey (7 : Nat)).2 = [⟨.Added, 7⟩] :=
  ⟨rfl, (c3_update_content_aware exStateEmpty exKey 7 rfl).2.2.1 rfl⟩

/-- Claim C4: while watching, `Create(k, v)` on a key where `Get` succeeds
fails with the duplicate (AlreadyExists) error, emits no event, and leaves
the whole state — in particular the stored value — unchanged; on a key where
`Get` fails, it persists `v`, returns success, and emits exactly one `Added`
event carrying `v`. -/
theorem c4_create_exclusive {T : Type} (s : MemState T) (k : Key) (v : T)
    (hw : s.watching = true) :
    (∀ v₁, memGet s k = .ok v₁ →
      memCreate s k v = (.error (.duplicate k), s, [])
      ∧ memGet (memCreate s k v).2.1 k = .ok v₁)
    ∧ (∀ e, memGet s k = .error e →
      (memCreate s k v).1 = .ok ()
      ∧ (memCreate s k v).2.2 = [⟨.Added, v⟩]
      ∧ memGet (memCreate s k v).2.1 k = .ok v) := by
  cases h : dbLookup s.db k <;>
    simp [memCreate, memGet, notifyWatcher, h, dbLookup_dbUpdate_self, hw]

/-- Claim C4 witness: creating an existing key fails with the duplicate
error and changes nothing; creating a fresh key emits one `Added` event. -/
theorem c4_witness :
    memCreate exStateA exKey (9 : Nat) = (.error (.duplicate exKey), exStateA, [])
    ∧ (memCreate exStateEmpty exKey (9 : Nat)).2.2 = [⟨.Added, 9⟩] :=
  ⟨((c4_create_exclusive exStateA exKey 9 rfl).1 5 rfl).1,
   ((c4_create_exclusive exStateEmpty exKey 9 rfl).2 (.notFound exKey) rfl).2.1⟩

/-- Claim C5: while watching, `Delete(k)` on a key whose pre-delete read
fails returns success with the state unchanged and no event; on a present
key it emits exactly one `Deleted` event carrying the value stored
immediately before deletion, removes the entry, and leaves every other key
untouched. -/
theorem c5_delete_idempotent {T : Type} (s : MemState T) (k : Key)
    (hw : s.watching = true) :
    (∀ e, memGet s k = .error e → memDelete s k = (s, []))
    ∧ (∀ obj, memGet s k = .ok obj →
      (memDelete s k).2 = [⟨.Deleted, obj⟩]
      ∧ memGet (memDelete s k).1 k = .error (.notFound k)
      ∧ ∀ k1, k1 ≠ k → dbLookup (memDelete s k).1.db k1 = dbLookup s.db k1) := by
  cases h : dbLookup s.db k <;>
    simp [memDelete, memGet, notifyWatcher, h, hw, dbLookup_dbDelete_self]
  intro k1 hk1
  exact dbLookup_dbDelete_other s.db k k1 hk1

/-- Claim C5 witness: deleting an absent key is a silent no-op; deleting a
present key emits one `Deleted` event carrying the pre-delete value. -/
theorem c5_witness :
    memDelete exStateEmpty exKey = (exStateEmpty, [])
    ∧ (memDelete exStateA exKey).2 = [⟨.Deleted, 5⟩] :=
  ⟨(c5_delete_idempotent exStateEmpty exKey rfl).1 (.notFound exKey) rfl,
   ((c5_delete_idempotent exStateA exKey rfl).2 5 rfl).1⟩

/-- Claim C6: while watching, `Apply(k, v)` persists `v` unconditionally and
emits exactly one event decided by prior existence alone: `Added` when `k`
was absent, `Modified` when `k` was present with any stored value — the
previous content is never compared, so a structurally equal value still
yields `Modified`. -/
theorem c6_apply_existence_only {T : Type} (s : MemState T) (k : Key) (v : T)
    (hw : s.watching = true) :
    (memApply s k v).1.db = dbUpdate s.db k v
    ∧ memGet (memApply s k v).1 k = .ok v
    ∧ (dbLookup s.db k = none → (memApply s k v).2 = [⟨.Added, v⟩])
    ∧ (∀ old, dbLookup s.db k = some old → (memApply s k v).2 = [⟨.Modified, v⟩]) := by
  cases h : dbLookup s.db k <;>
    simp [memApply, memGet, notifyWatcher, h, hw, dbLookup_dbUpdate_self]

/-- Claim C6 witness: applying the value already stored still emits
`Modified`; applying to an absent key emits `Added`. -/
theorem c6_witness :
    (memApply exStateA exKey (5 : Nat)).2 = [⟨.Modified, 5⟩]
    ∧ (memApply exStateEmpty exKey (5 : Nat)).2 = [⟨.Added, 5⟩] :=
  ⟨(c6_apply_existence_only exStateA exKey 5 rfl).2.2.2 5 rfl,
   (c6_apply_existence_only exStateEmpty exKey 5 rfl).2.2.1 rfl⟩

/-- Claim C7: while the store is stopped (watching flag false), every
mutation — Create, Update, Apply, Delete, UpdateWithKeyFn — changes the
backend state exactly as it does while watching and returns the same result,
but emits no event at all. -/
theorem c7_stopped_persists_silently {T : Type} [DecidableEq T] (s : MemState T)
    (k : Key) (v zero : T) (fn : T → T) :
    ((memCreate (memStop s) k v).2.2 = []
      ∧ (memCreate (memStop s) k v).1 = (memCreate (memStart s) k v).1
      ∧ (memCreate (memStop s) k v).2.1.db = (memCreate (memStart s) k v).2.1.db)
    ∧ ((memUpdate (memStop s) k v).2 = []
      ∧ (memUpdate (memStop s) k v).1.db = (memUpdate (memStart s) k v).1.db)
    ∧ ((memApply (memStop s) k v).2 = []
      ∧ (memApply (memStop s) k v).1.db = (memApply (memStart s) k v).1.db)
    ∧ ((memDelete (memStop s) k).2 = []
      ∧ (memDelete (memStop s) k).1.db = (memDelete (memStart s) k).1.db)
    ∧ ((memUpdateWithKeyFn (memStop s) k zero fn).2 = []
      ∧ (memUpdateWithKeyFn (memStop s) k zero fn).1.db
          = (memUpdateWithKeyFn (memStart s) k zero fn).1.db) := by
  cases h : dbLookup s.db k <;>
    simp [memCreate, memUpdate, memApply, memDelete, memUpdateWithKeyFn,
      memStart, memStop, memGet, notifyWatcher, h]

/-- Claim C8: the operation `UpdateWithKeyFn(k, fn)` emits no event, and stores under `k`
the result of `fn` applied to the currently stored value — the zero value
when `k` is absent — while leaving every other key untouched. -/
theorem c8_update_with_key_fn {T : Type} (s : MemState T) (k : Key) (zero : T)
    (fn : T → T) :
    (memUpdateWithKeyFn s k zero fn).2 = []
    ∧ (dbLookup s.db k = none →
        memGet (memUpdateWithKeyFn s k zero fn).1 k = .ok (fn zero))
    ∧ (∀ old, dbLookup s.db k = some old →
        memGet (memUpdateWithKeyFn s k zero fn).1 k = .ok (fn old))
    ∧ (∀ k1, k1 ≠ k →
        dbLookup (memUpdateWithKeyFn s k zero fn).1.db k1 = dbLookup s.db k1) := by
  cases h : dbLookup s.db k <;>
    simp [memUpdateWithKeyFn, memGet, h, dbLookup_dbUpdate_self] <;>
    exact fun k1 hk1 => dbLookup_dbUpdate_other s.db k k1 _ hk1

/-- Claim C8 witness: incrementing the stored value through
`UpdateWithKeyFn` stores the incremented value and leaves other keys
unchanged. -/
theorem c8_witness :
    memGet (memUpdateWithKeyFn exStateA exKey 0 (fun n => n + 1)).1 exKey = .ok 6
    ∧ dbLookup (memUpdateWithKeyFn exStateA exKey 0 (fun n => n + 1)).1.db exKeyOther
        = dbLookup exStateA.db exKeyOther :=
  ⟨(c8_update_with_key_fn exStateA exKey 0 (fun n => n + 1)).2.2.1 5 rfl,
   (c8_update_with_key_fn exStateA exKey 0 (fun n => n + 1)).2.2.2 exKeyOther
     (by decide)⟩

/-- Claim C9: `ListKeys` yields one string per stored entry (its length
equals `Len`), the i-th string is exactly the Name component of the i-th
key of the i-th entry with the Namespace discarded, and two entries whose keys share a
Name — in particular keys differing only in Namespace — produce identical
strings. -/
theorem c9_list_keys_only_names {T : Type} (s : MemState T) :
    (memListKeys s).length = memLen s
    ∧ (∀ i : Nat, (memListKeys s)[i]? = (s.db[i]?).map (fun kv => kv.1.Name))
    ∧ (∀ i j : Nat, ∀ kv₁ kv₂ : Key × T, s.db[i]? = some kv₁ → s.db[j]? = some kv₂ →
        kv₁.1.Name = kv₂.1.Name → (memListKeys s)[i]? = (memListKeys s)[j]?) := by
  refine ⟨by simp [memListKeys, memLen], fun i => by simp [memListKeys], ?_⟩
  intro i j kv₁ kv₂ h₁ h₂ hn
  simp [memListKeys, h₁, h₂, hn]

/-- Claim C9 witness: on a store holding two entries whose keys differ only
in namespace, `ListKeys` has length `Len` and yields the same string at both
positions. -/
theorem c9_witness :
    (memListKeys exStateTwo).length = memLen exStateTwo
    ∧ (memListKeys exStateTwo)[0]? = (memListKeys exStateTwo)[1]? :=
  ⟨(c9_list_keys_only_names exStateTwo).1,
   (c9_list_keys_only_names exStateTwo).2.2 0 1 (exKey, 5) (exKeyOther, 6) rfl rfl rfl⟩

/-- Claim C10: read-your-write on the in-memory store: immediately after a
successful `Create(k, v)`, and after any `Update(k, v)` or `Apply(k, v)`,
`Get(k)` returns `v`, and the stored value (or absence) under any other key
is unchanged by that mutation. -/
theorem c10_read_your_write {T : Type} [DecidableEq T] (s : MemState T) (k k1 : Key)
    (v : T) (hk : k1 ≠ k) :
    ((memCreate s k v).1 = .ok () →
      memGet (memCreate s k v).2.1 k = .ok v
      ∧ dbLookup (memCreate s k v).2.1.db k1 = dbLookup s.db k1)
    ∧ (memGet (memUpdate s k v).1 k = .ok v
      ∧ dbLookup (memUpdate s k v).1.db k1 = dbLookup s.db k1)
    ∧ (memGet (memApply s k v).1 k = .ok v
      ∧ dbLookup (memApply s k v).1.db k1 = dbLookup s.db k1) := by
  cases h : dbLookup s.db k <;>
    simp [memCreate, memUpdate, memApply, memGet, notifyWatcher, h,
      dbLookup_dbUpdate_self, dbLookup_dbUpdate_other _ _ _ _ hk]

/-- Claim C10 witness: after `Update` on an empty store, `Get` returns the
written value and other keys remain absent. -/
theorem c10_witness :
    memGet (memUpdate exStateEmpty exKey (3 : Nat)).1 exKey = .ok 3
    ∧ dbLookup (memApply exStateEmpty exKey (3 : Nat)).1.db exKeyOther
        = dbLookup exStateEmpty.db exKeyOther :=
  ⟨(c10_read_your_write exStateEmpty exKey exKeyOther 3 (by decide)).2.1.1,
   (c10_read_your_write exStateEmpty exKey exKeyOther 3 (by decide)).2.2.2⟩

theorem dispatchLoop_append {T : Type} (es₁ es₂ : List (WatchEvent T)) :
    ∀ (ws : List (DWatcher T)) (t : Nat),
      dispatchLoop ws (es₁ ++ es₂) t
        = dispatchLoop (dispatchLoop ws es₁ t) es₂ (t + es₁.length) := by
  induction es₁ with
  | nil => intro ws t; simp [dispatchLoop]
  | cons e rest ih =>
    intro ws t
    have harith : t + (rest.length + 1) = t + 1 + rest.length := by omega
    simp only [List.cons_append, dispatchLoop, List.length_cons, harith]
    exact ih (processEvent t e ws) (t + 1)

theorem dispatch_live_receives {T : Type} (events : List (WatchEvent T)) :
    ∀ (ws : List (DWatcher T)) (t : Nat) (w : DWatcher T), w ∈ ws →
      (∀ u, w.isDone u = false) → (∀ e, w.keepGoing e = true) →
      ∃ w' ∈ dispatchLoop ws events t,
        w'.key = w.key ∧ w'.isDone = w.isDone ∧ w'.keepGoing = w.keepGoing
          ∧ w'.received = w.received ++ events := by
  induction events with
  | nil =>
    intro ws t w hw _ _
    exact ⟨w, hw, rfl, rfl, rfl, by simp⟩
  | cons e rest ih =>
    intro ws t w hw hd hk
    have hmem : ({ w with received := w.received ++ [e] } : DWatcher T)
        ∈ processEvent t e ws := by
      rw [processEvent, List.mem_filterMap]
      exact ⟨w, hw, by simp [hd t, hk e]⟩
    obtain ⟨w', hw', h1, h2, h3, h4⟩ := ih (processEvent t e ws) (t + 1)
      { w with received := w.received ++ [e] } hmem hd hk
    exact ⟨w', hw', h1, h2, h3, by simp [h4]⟩

/-- Claim C1: the dispatch loop of the watcher manager processes the event
sequence one event at a time — fan-out for event n completes (the per-event
goroutine barrier) before event n+1 is taken up, so dispatching a
concatenation equals dispatching the first part and then the second — and
every subscriber that remains registered throughout (its `isDone` never
reports an error and its callback always answers keep-going) receives, via
its callback, exactly the events sent, appended in exactly the order they
were sent. -/
theorem c1_dispatch_serialized_order :
    (∀ (T : Type) (ws : List (DWatcher T)) (es₁ es₂ : List (WatchEvent T)) (t : Nat),
      dispatchLoop ws (es₁ ++ es₂) t
        = dispatchLoop (dispatchLoop ws es₁ t) es₂ (t + es₁.length))
    ∧ (∀ (T : Type) (ws : List (DWatcher T)) (events : List (WatchEvent T)) (t : Nat)
        (w : DWatcher T), w ∈ ws →
        (∀ u, w.isDone u = false) → (∀ e, w.keepGoing e = true) →
        ∃ w' ∈ dispatchLoop ws events t,
          w'.key = w.key ∧ w'.received = w.received ++ events) :=
  ⟨fun _ ws es₁ es₂ t => dispatchLoop_append es₁ es₂ ws t,
   fun _ ws events t w hw hd hk => by
    obtain ⟨w', hw', h1, _, _, h4⟩ := dispatch_live_receives events ws t w hw hd hk
    exact ⟨w', hw', h1, h4⟩⟩

/-- Claim C1 witness: a live always-keep-going subscriber receives a
concrete two-event sequence in emission order. -/
theorem c1_witness :
    ∃ w' ∈ dispatchLoop [exDW] [exEvent1, exEvent2] 0,
      w'.key = exDW.key ∧ w'.received = exDW.received ++ [exEvent1, exEvent2] :=
  c1_dispatch_serialized_order.2 Nat [exDW] [exEvent1, exEvent2] 0 exDW
    (List.mem_singleton.mpr rfl) (fun _ => rfl) (fun _ => rfl)

theorem addLiveIter_inv (C : Nat) : ∀ i : Nat, i ≤ C →
    (addLiveIter (newMgr C) i).avail = C - i
    ∧ (addLiveIter (newMgr C) i).watchers.length = i
    ∧ (∀ w ∈ (addLiveIter (newMgr C) i).watchers, w.done = false) := by
  intro i
  induction i with
  | zero => intro _; simp [addLiveIter, newMgr]
  | succ n ih =>
    intro h
    obtain ⟨ha, hl, hlive⟩ := ih (Nat.le_of_succ_le h)
    have h1 : (addLiveIter (newMgr C) n).watchers.filter (fun w => w.done) = [] :=
      List.filter_eq_nil_iff.mpr (fun w hw => by simp [hlive w hw])
    have h2 : (addLiveIter (newMgr C) n).watchers.filter (fun w => !w.done)
        = (addLiveIter (newMgr C) n).watchers :=
      List.filter_eq_self.mpr (fun w hw => by simp [hlive w hw])
    have hsweep : mgrSweep (addLiveIter (newMgr C) n) = addLiveIter (newMgr C) n := by
      simp [mgrSweep, h1, h2]
    have havail : ¬(addLiveIter (newMgr C) n).avail = 0 := by omega
    have havail2 : ¬(C - n = 0) := by omega
    refine ⟨?_, ?_, ?_⟩
    · simp [addLiveIter, mgrAdd, hsweep, ha, havail2]
      omega
    · simp [addLiveIter, mgrAdd, hsweep, ha, havail2, hl]
    · intro w hw
      simp only [addLiveIter, mgrAdd, hsweep, if_neg havail] at hw
      rcases List.mem_append.mp hw with hlft | hrgt
      · exact hlive w hlft
      · simp at hrgt; simp [hrgt]

theorem sweep_of_all_live (st : MgrState)
    (hlive : ∀ w ∈ st.watchers, w.done = false) : mgrSweep st = st := by
  have h1 : st.watchers.filter (fun w => w.done) = [] :=
    List.filter_eq_nil_iff.mpr (fun w hw => by simp [hlive w hw])
  have h2 : st.watchers.filter (fun w => !w.done) = st.watchers :=
    List.filter_eq_self.mpr (fun w hw => by simp [hlive w hw])
  simp [mgrSweep, h1, h2]

/-- Claim C2: with admission ceiling C (the `maxWatchers` value given to the
constructor), C consecutive `Add` calls with live contexts all succeed; the
next call fails with the ResourceExhausted error and leaves the manager
state — in particular the registry — unchanged; and on any state holding at
least one subscription whose `isDone` reports an error, `Add` succeeds
again, the pre-admission sweep having removed every such entry and released
its semaphore unit. -/
theorem c2_admission_ceiling (C : Nat) :
    (∀ i, i < C → (mgrAdd (addLiveIter (newMgr C) i) false).1 = .ok ())
    ∧ (mgrAdd (addLiveIter (newMgr C) C) false).1 = .error .resourceExhausted
    ∧ (mgrAdd (addLiveIter (newMgr C) C) false).2 = addLiveIter (newMgr C) C
    ∧ (∀ st : MgrState, (∃ w ∈ st.watchers, w.done = true) →
        (mgrAdd st false).1 = .ok ()
        ∧ ∀ w' ∈ (mgrAdd st false).2.watchers, w'.done = false) := by
  refine ⟨?_, ?_, ?_, ?_⟩
  · intro i hi
    obtain ⟨ha, _, hlive⟩ := addLiveIter_inv C i (Nat.le_of_lt hi)
    have havail : ¬(addLiveIter (newMgr C) i).avail = 0 := by omega
    simp [mgrAdd, sweep_of_all_live _ hlive, havail]
  · obtain ⟨ha, _, hlive⟩ := addLiveIter_inv C C (Nat.le_refl C)
    have havail : (addLiveIter (newMgr C) C).avail = 0 := by omega
    simp [mgrAdd, sweep_of_all_live _ hlive, havail]
  · obtain ⟨ha, _, hlive⟩ := addLiveIter_inv C C (Nat.le_refl C)
    have havail : (addLiveIter (newMgr C) C).avail = 0 := by omega
    simp [mgrAdd, sweep_of_all_live _ hlive, havail]
  · intro st ⟨w, hw, hdone⟩
    have hmem : w ∈ st.watchers.filter (fun w => w.done) :=
      List.mem_filter.mpr ⟨hw, by simp [hdone]⟩
    have hpos : 0 < (st.watchers.filter (fun w => w.done)).length :=
      List.length_pos.mpr (List.ne_nil_of_mem hmem)
    have havail : ¬(mgrSweep st).avail = 0 := by
      simp only [mgrSweep]; omega
    constructor
    · simp [mgrAdd, havail]
    · intro w' hw'
      simp only [mgrAdd, if_neg havail] at hw'
      rcases List.mem_append.mp hw' with hlft | hrgt
      · have hmf : w' ∈ st.watchers ∧ w'.done = false := by
          simpa [mgrSweep] using hlft
        exact hmf.2
      · simp at hrgt; simp [hrgt]

/-- Claim C2 witness: with ceiling 2, two live `Add` calls succeed, the
third fails with ResourceExhausted, and on a full manager with one done
subscription `Add` succeeds again. -/
theorem c2_witness :
    (mgrAdd (addLiveIter (newMgr 2) 0) false).1 = .ok ()
    ∧ (mgrAdd (addLiveIter (newMgr 2) 1) false).1 = .ok ()
    ∧ (mgrAdd (addLiveIter (newMgr 2) 2) false).1 = .error .resourceExhausted
    ∧ (mgrAdd exMgrFullDone false).1 = .ok () :=
  ⟨(c2_admission_ceiling 2).1 0 (by decide), (c2_admission_ceiling 2).1 1 (by decide),
   (c2_admission_ceiling 2).2.1,
   ((c2_admission_ceiling 2).2.2.2 exMgrFullDone ⟨⟨0, true⟩, by decide, rfl⟩).1⟩

end Store
